import Mathlib

/-!
Verification development for the Substrate/Polkadot deterministic Wasm
execution host (`substrate/executor/src/wasm_executor.rs`), the contract
env-definition macros (`substrate/runtime/contract/src/vm/env_def/macros.rs`)
and the adder test parachain (`polkadot/test-parachains/adder/src/lib.rs`).

Machine integers are modelled as `Nat` bit patterns with explicit
`% 2^32` / `% 2^64` where the source performs wrapping arithmetic or
truncating casts.  Fallible host operations return `Except`; host calls
that can additionally abort the host process (Rust panics such as
`expect`, `unimplemented!` and slice-index overflow) return a dedicated
result type with a `panicked` constructor.
-/

namespace WasmHost

/-- A wasmi linear memory instance.  `data` is the current byte contents,
`initialPages` is the declared initial page count (returned by
`MemoryInstance::initial`), `maximumPages` the optional declared maximum.
Modelled from the spec: wasmi's `MemoryInstance` is an external
dependency; the spec fixes its semantics in the Memory View section
(bounds-checked `get`/`set`, growth in 64 KiB pages rejected beyond the
declared maximum). -/
structure MemoryInst where
  data : List Nat
  initialPages : Nat
  maximumPages : Option Nat
deriving DecidableEq

/-- Bounds-checked read of `len` bytes at `ptr` (`MemoryInstance::get`). -/
def MemoryInst.get (m : MemoryInst) (ptr len : Nat) : Except Unit (List Nat) :=
  if ptr + len ≤ m.data.length then .ok ((m.data.drop ptr).take len) else .error ()

/-- Bounds-checked write of `bytes` at `ptr` (`MemoryInstance::set`). -/
def MemoryInst.set (m : MemoryInst) (ptr : Nat) (bytes : List Nat) : Except Unit MemoryInst :=
  if ptr + bytes.length ≤ m.data.length then
    .ok { m with data := m.data.take ptr ++ bytes ++ m.data.drop (ptr + bytes.length) }
  else .error ()

/-- Current size of the memory in 64 KiB pages. -/
def MemoryInst.curPages (m : MemoryInst) : Nat := m.data.length / 65536

/-- Grow the memory by `pages` pages (`MemoryInstance::grow`), rejected when
the declared maximum would be exceeded. -/
def MemoryInst.grow (m : MemoryInst) (pages : Nat) : Except Unit MemoryInst :=
  match m.maximumPages with
  | some maxP =>
    if m.curPages + pages > maxP then .error ()
    else .ok { m with data := m.data ++ List.replicate (pages * 65536) 0 }
  | none => .ok { m with data := m.data ++ List.replicate (pages * 65536) 0 }

/-- Error kinds of the executor (`error::ErrorKind`); wasmi-originated
errors converted through `e.into()` are collapsed into `Wasmi`. -/
inductive ExecError where
  | Runtime
  | InvalidReturn
  | Wasmi
deriving DecidableEq

/-- The bump-allocator heap of the executor: a single `end` cursor
(field renamed `end_` because `end` is a Lean keyword). -/
structure Heap where
  end_ : Nat
deriving DecidableEq

/-- `Heap::new`: record the memory's declared initial page count, grow the
memory by the configured extra `pages` (a rejected grow becomes the
`Runtime` error), and set the cursor to the byte size of the pre-grow
region.  The source stores `Bytes::from(prev_page_count).0 as u32`, hence
the `% 2^32`. -/
def Heap.new (m : MemoryInst) (pages : Nat) : Except ExecError (Heap × MemoryInst) :=
  match m.grow pages with
  | .error _ => .error .Runtime
  | .ok m' => .ok (⟨m.initialPages * 65536 % 4294967296⟩, m')

/-- `Heap::allocate`: return the current `end`, then advance it by `size`
(u32 wrapping addition). -/
def Heap.allocate (h : Heap) (size : Nat) : Nat × Heap :=
  (h.end_, ⟨(h.end_ + size) % 4294967296⟩)

/-- `Heap::deallocate`: a no-op. -/
def Heap.deallocate (h : Heap) (_offset : Nat) : Heap := h

/-- Run a sequence of `ext_malloc` allocations, returning the pointers in
order together with the final heap. -/
def allocSeq : Heap → List Nat → List Nat × Heap
  | h, [] => ([], h)
  | h, size :: rest =>
    let p := (h.allocate size).1
    let out := allocSeq (h.allocate size).2 rest
    (p :: out.1, out.2)

/-- A wasmi runtime value; payloads are kept as raw bit patterns. -/
inductive RuntimeValue where
  | I32 (bits : Nat)
  | I64 (bits : Nat)
  | F32 (bits : Nat)
  | F64 (bits : Nat)
deriving DecidableEq

/-- Decoding of the value returned by the invoked export
(`wasm_executor.rs` lines 579-586): a single `I64` is split into
`offset = r as u32` (low 32 bits) and `length = (r >> 32) as u32`
(high 32 bits) and that byte range is read from the guest memory, a
failed read becoming the `Runtime` error; every other shape is the
`InvalidReturn` error. -/
def decodeCallResult (memory : MemoryInst) (returned : Option RuntimeValue) :
    Except ExecError (List Nat) :=
  match returned with
  | some (.I64 r) =>
    match memory.get (r % 4294967296) (r / 4294967296 % 4294967296) with
    | .ok bytes => .ok bytes
    | .error _ => .error .Runtime
  | _ => .error .InvalidReturn

/-- Result of a host call that may return normally, trap the guest with a
user error, or abort the host process through a Rust panic. -/
inductive HRes (α : Type) where
  | ok (a : α)
  | trap
  | panicked
deriving DecidableEq

/-- The closed set of sandbox return codes (`sandbox_primitives`).
Modelled from the spec: the `primitives::sandbox` module is not part of
the sources; only `ERR_OK = 0` is fixed numerically, so the codes are
kept symbolic. -/
inductive SandboxCode where
  | ERR_OK
  | ERR_EXECUTION
  | ERR_OUT_OF_BOUNDS
deriving DecidableEq

/-- Outcome of invoking an export of a nested sandbox instance: normal
completion with an optional returned value, or a trap. -/
inductive InvokeOutcome where
  | ok (ret : Option RuntimeValue)
  | trapped

/-- A nested sandbox instance, abstracted to the behaviour of its
`invoke` entry point: export name bytes, arguments and the opaque state
word determine the outcome.  Modelled from the spec: the `sandbox`
module holding `SandboxInstance` is not part of the sources. -/
structure SandboxInstance where
  invoke : List Nat → List RuntimeValue → Nat → InvokeOutcome

/-- The sub-sandbox store: index-addressed instances and memories, a
torn-down index holding `none` and never being reused.  Modelled from
the spec: the `sandbox` module holding `Store` is not part of the
sources; the spec fixes `get(index) → entity | InvalidIndex`. -/
structure SandboxStore where
  instances : List (Option SandboxInstance)
  memories : List (Option MemoryInst)

/-- `Store::instance`: look an instance up by index; an invalid or
torn-down index is a user-error trap. -/
def SandboxStore.instanceAt (s : SandboxStore) (idx : Nat) : Except Unit SandboxInstance :=
  match s.instances.get? idx with
  | some (some i) => .ok i
  | _ => .error ()

/-- `Store::memory`: look a sandbox memory up by index; an invalid or
torn-down index is a user-error trap. -/
def SandboxStore.memoryAt (s : SandboxStore) (idx : Nat) : Except Unit MemoryInst :=
  match s.memories.get? idx with
  | some (some m) => .ok m
  | _ => .error ()

/-- Replace the sandbox memory stored at `idx`. -/
def SandboxStore.updateMemory (s : SandboxStore) (idx : Nat) (m : MemoryInst) : SandboxStore :=
  { s with memories := s.memories.set idx (some m) }

/-- `ext_get_storage_into` (`wasm_executor.rs` lines 260-285): read the
key from guest memory, look it up in storage; on a hit drop
`value_offset` leading bytes of the value — the source slices
`&value[value_offset..]`, which panics when `value_offset` exceeds the
value's length — write `min value_len` remaining `bytes` into the guest
buffer and return the written count; on a miss return `u32::MAX`. -/
def ext_get_storage_into (mem : MemoryInst) (storage : List Nat → Option (List Nat))
    (key_data key_len value_data value_len value_offset : Nat) : HRes (Nat × MemoryInst) :=
  match mem.get key_data key_len with
  | .error _ => .trap
  | .ok key =>
    match storage key with
    | some value =>
      if value_offset ≤ value.length then
        match mem.set value_data ((value.drop value_offset).take
            (min value_len (value.drop value_offset).length)) with
        | .error _ => .trap
        | .ok mem' => .ok (min value_len (value.drop value_offset).length, mem')
      else .panicked
    | none => .ok (4294967295, mem)

/-- Validity of a byte sequence as UTF-8 (RFC 3629, as enforced by
`String::from_utf8`). -/
def isValidUtf8 : List Nat → Bool
  | [] => true
  | b :: rest =>
    if b ≤ 0x7F then isValidUtf8 rest
    else if 0xC2 ≤ b ∧ b ≤ 0xDF then
      match rest with
      | c :: r => (0x80 ≤ c && c ≤ 0xBF) && isValidUtf8 r
      | [] => false
    else if b = 0xE0 then
      match rest with
      | c :: d :: r => (0xA0 ≤ c && c ≤ 0xBF) && (0x80 ≤ d && d ≤ 0xBF) && isValidUtf8 r
      | _ => false
    else if (0xE1 ≤ b ∧ b ≤ 0xEC) ∨ b = 0xEE ∨ b = 0xEF then
      match rest with
      | c :: d :: r => (0x80 ≤ c && c ≤ 0xBF) && (0x80 ≤ d && d ≤ 0xBF) && isValidUtf8 r
      | _ => false
    else if b = 0xED then
      match rest with
      | c :: d :: r => (0x80 ≤ c && c ≤ 0x9F) && (0x80 ≤ d && d ≤ 0xBF) && isValidUtf8 r
      | _ => false
    else if b = 0xF0 then
      match rest with
      | c :: d :: e :: r =>
        (0x90 ≤ c && c ≤ 0xBF) && (0x80 ≤ d && d ≤ 0xBF) && (0x80 ≤ e && e ≤ 0xBF) &&
          isValidUtf8 r
      | _ => false
    else if 0xF1 ≤ b ∧ b ≤ 0xF3 then
      match rest with
      | c :: d :: e :: r =>
        (0x80 ≤ c && c ≤ 0xBF) && (0x80 ≤ d && d ≤ 0xBF) && (0x80 ≤ e && e ≤ 0xBF) &&
          isValidUtf8 r
      | _ => false
    else if b = 0xF4 then
      match rest with
      | c :: d :: e :: r =>
        (0x80 ≤ c && c ≤ 0x8F) && (0x80 ≤ d && d ≤ 0xBF) && (0x80 ≤ e && e ≤ 0xBF) &&
          isValidUtf8 r
      | _ => false
    else false

/-- Legacy `ext_sandbox_invoke` (`wasm_executor.rs` lines 385-401): read
and UTF-8-decode the export name (failures trap), look the instance up
(an invalid index traps), invoke the export with no arguments; a nested
completion without a value yields `ERR_OK`, a nested trap yields
`ERR_EXECUTION`, and a nested completion WITH a value hits
`unimplemented!()`, i.e. a host panic. -/
def ext_sandbox_invoke (store : SandboxStore) (mem : MemoryInst)
    (instance_idx export_ptr export_len state : Nat) : HRes SandboxCode :=
  match mem.get export_ptr export_len with
  | .error _ => .trap
  | .ok bytes =>
    if isValidUtf8 bytes then
      match store.instanceAt instance_idx with
      | .error _ => .trap
      | .ok inst =>
        match inst.invoke bytes [] state with
        | .ok none => .ok .ERR_OK
        | .ok (some _) => .panicked
        | .trapped => .ok .ERR_EXECUTION
    else .trap

/-- `ext_sandbox_memory_get` (`wasm_executor.rs` lines 447-460): an
invalid memory index traps; an out-of-range read of the sandbox memory
or write of the outer memory returns the soft code `ERR_OUT_OF_BOUNDS`;
otherwise the bytes are copied into the outer memory and `ERR_OK`
returned. -/
def ext_sandbox_memory_get (store : SandboxStore) (mem : MemoryInst)
    (memory_idx offset buf_ptr buf_len : Nat) : HRes (SandboxCode × MemoryInst) :=
  match store.memoryAt memory_idx with
  | .error _ => .trap
  | .ok dst_memory =>
    match dst_memory.get offset buf_len with
    | .error _ => .ok (.ERR_OUT_OF_BOUNDS, mem)
    | .ok data =>
      match mem.set buf_ptr data with
      | .error _ => .ok (.ERR_OUT_OF_BOUNDS, mem)
      | .ok mem' => .ok (.ERR_OK, mem')

/-- `ext_sandbox_memory_set` (`wasm_executor.rs` lines 461-474): an
invalid memory index traps; an out-of-range read of the outer memory or
write of the sandbox memory returns the soft code `ERR_OUT_OF_BOUNDS`;
otherwise the bytes are copied into the sandbox memory and `ERR_OK`
returned. -/
def ext_sandbox_memory_set (store : SandboxStore) (mem : MemoryInst)
    (memory_idx offset val_ptr val_len : Nat) : HRes (SandboxCode × SandboxStore) :=
  match store.memoryAt memory_idx with
  | .error _ => .trap
  | .ok dst_memory =>
    match mem.get offset val_len with
    | .error _ => .ok (.ERR_OUT_OF_BOUNDS, store)
    | .ok data =>
      match dst_memory.set val_ptr data with
      | .error _ => .ok (.ERR_OUT_OF_BOUNDS, store)
      | .ok dst' => .ok (.ERR_OK, store.updateMemory memory_idx dst')

/-- The mutable state threaded through one invocation: the shared linear
memory, the bump heap and the embedder's externalities (kept abstract as
a value of type `E`). -/
structure ExecState (E : Type) where
  mem : MemoryInst
  heap : Heap
  ext : E

/-- What `export_by_name "memory"` can produce once instantiation
succeeded: a linear memory, or an export of another kind. -/
inductive ExportEntry where
  | memory (m : MemoryInst)
  | other

/-- A parsed wasm module together with the wasmi semantics of running
it, abstracted to what `call_in_wasm_module` consumes: the result of
`ModuleInstance::new`, the `memory` and `__indirect_function_table`
export lookups, and deterministic state transformers for the start
function and for `invoke_export`.  The transformers return the
post-state also on a trap, mirroring that mutations of the shared
memory and externalities persist when the guest traps. -/
structure ModuleModel (E : Type) where
  instErr : Option ExecError
  memExport : Option ExportEntry
  hasTable : Bool
  runStart : ExecState E → Except ExecError Unit × ExecState E
  invoke : String → List RuntimeValue → ExecState E → Except ExecError (Option RuntimeValue) × ExecState E

/-- Outcome of `WasmExecutor::call_in_wasm_module`: returned bytes or an
error, in both cases together with the externalities post-state, or a
host-process panic. -/
inductive CallOutcome (E : Type) where
  | ok (bytes : List Nat) (ext : E)
  | err (e : ExecError) (ext : E)
  | panicked

/-- `WasmExecutor::call_in_wasm_module` (`wasm_executor.rs` lines
523-587): instantiate (start deferred), extract the `memory` export —
the source `expect`s, so a missing or non-memory export is a host panic
— build the `FunctionExecutor` (growing the heap, a rejected grow being
the `Runtime` error), run the start function, allocate and copy the
payload in, invoke the export with `(offset, size)` as two `I32`s, and
decode the returned value through `decodeCallResult`. -/
def call_in_wasm_module (max_heap_pages : Nat) (mm : ModuleModel E)
    (method : String) (data : List Nat) (ext : E) : CallOutcome E :=
  match mm.instErr with
  | some e => .err e ext
  | none =>
    match mm.memExport with
    | none => .panicked
    | some .other => .panicked
    | some (.memory memory) =>
      match Heap.new memory max_heap_pages with
      | .error e => .err e ext
      | .ok (heap, memory') =>
        match mm.runStart ⟨memory', heap, ext⟩ with
        | (.error e, st) => .err e st.ext
        | (.ok _, st) =>
          let size := data.length % 4294967296
          let offset := (st.heap.allocate size).1
          match st.mem.set offset data with
          | .error _ => .err .Wasmi st.ext
          | .ok mem' =>
            match mm.invoke method [.I32 offset, .I32 size]
                ⟨mem', (st.heap.allocate size).2, st.ext⟩ with
            | (.error e, st') => .err e st'.ext
            | (.ok returned, st') =>
              match decodeCallResult st'.mem returned with
              | .ok bytes => .ok bytes st'.ext
              | .error e => .err e st'.ext

/-- Big-step relation mirroring `call_in_wasm_module` branch for branch;
one constructor per exit path of the source function. -/
inductive CallRel (max_heap_pages : Nat) (mm : ModuleModel E) (method : String)
    (data : List Nat) (ext : E) : CallOutcome E → Prop where
  | instFail (e : ExecError) :
      mm.instErr = some e →
      CallRel max_heap_pages mm method data ext (.err e ext)
  | noMemoryExport :
      mm.instErr = none → mm.memExport = none →
      CallRel max_heap_pages mm method data ext .panicked
  | memoryExportNotMemory :
      mm.instErr = none → mm.memExport = some .other →
      CallRel max_heap_pages mm method data ext .panicked
  | heapFail (memory : MemoryInst) (e : ExecError) :
      mm.instErr = none → mm.memExport = some (.memory memory) →
      Heap.new memory max_heap_pages = .error e →
      CallRel max_heap_pages mm method data ext (.err e ext)
  | startFail (memory memory' : MemoryInst) (heap : Heap) (e : ExecError) (st : ExecState E) :
      mm.instErr = none → mm.memExport = some (.memory memory) →
      Heap.new memory max_heap_pages = .ok (heap, memory') →
      mm.runStart ⟨memory', heap, ext⟩ = (.error e, st) →
      CallRel max_heap_pages mm method data ext (.err e st.ext)
  | payloadSetFail (memory memory' : MemoryInst) (heap : Heap) (u : Unit) (st : ExecState E) :
      mm.instErr = none → mm.memExport = some (.memory memory) →
      Heap.new memory max_heap_pages = .ok (heap, memory') →
      mm.runStart ⟨memory', heap, ext⟩ = (.ok u, st) →
      st.mem.set (st.heap.allocate (data.length % 4294967296)).1 data = .error () →
      CallRel max_heap_pages mm method data ext (.err .Wasmi st.ext)
  | invokeFail (memory memory' : MemoryInst) (heap : Heap) (u : Unit) (st : ExecState E)
      (mem' : MemoryInst) (e : ExecError) (st' : ExecState E) :
      mm.instErr = none → mm.memExport = some (.memory memory) →
      Heap.new memory max_heap_pages = .ok (heap, memory') →
      mm.runStart ⟨memory', heap, ext⟩ = (.ok u, st) →
      st.mem.set (st.heap.allocate (data.length % 4294967296)).1 data = .ok mem' →
      mm.invoke method
        [.I32 (st.heap.allocate (data.length % 4294967296)).1,
         .I32 (data.length % 4294967296)]
        ⟨mem', (st.heap.allocate (data.length % 4294967296)).2, st.ext⟩ = (.error e, st') →
      CallRel max_heap_pages mm method data ext (.err e st'.ext)
  | decodeFail (memory memory' : MemoryInst) (heap : Heap) (u : Unit) (st : ExecState E)
      (mem' : MemoryInst) (returned : Option RuntimeValue) (st' : ExecState E) (e : ExecError) :
      mm.instErr = none → mm.memExport = some (.memory memory) →
      Heap.new memory max_heap_pages = .ok (heap, memory') →
      mm.runStart ⟨memory', heap, ext⟩ = (.ok u, st) →
      st.mem.set (st.heap.allocate (data.length % 4294967296)).1 data = .ok mem' →
      mm.invoke method
        [.I32 (st.heap.allocate (data.length % 4294967296)).1,
         .I32 (data.length % 4294967296)]
        ⟨mem', (st.heap.allocate (data.length % 4294967296)).2, st.ext⟩ = (.ok returned, st') →
      decodeCallResult st'.mem returned = .error e →
      CallRel max_heap_pages mm method data ext (.err e st'.ext)
  | success (memory memory' : MemoryInst) (heap : Heap) (u : Unit) (st : ExecState E)
      (mem' : MemoryInst) (returned : Option RuntimeValue) (st' : ExecState E) (bytes : List Nat) :
      mm.instErr = none → mm.memExport = some (.memory memory) →
      Heap.new memory max_heap_pages = .ok (heap, memory') →
      mm.runStart ⟨memory', heap, ext⟩ = (.ok u, st) →
      st.mem.set (st.heap.allocate (data.length % 4294967296)).1 data = .ok mem' →
      mm.invoke method
        [.I32 (st.heap.allocate (data.length % 4294967296)).1,
         .I32 (data.length % 4294967296)]
        ⟨mem', (st.heap.allocate (data.length % 4294967296)).2, st.ext⟩ = (.ok returned, st') →
      decodeCallResult st'.mem returned = .ok bytes →
      CallRel max_heap_pages mm method data ext (.ok bytes st'.ext)

end WasmHost

namespace Adder

/-- Little-endian 8-byte encoding of a `u64` (parity-codec `Encode` for
`u64`). -/
def encodeU64 (n : Nat) : List Nat :=
  [n % 256, n / 256 % 256, n / 65536 % 256, n / 16777216 % 256,
   n / 4294967296 % 256, n / 1099511627776 % 256,
   n / 281474976710656 % 256, n / 72057594037927936 % 256]

/-- Head data of the adder parachain (`adder/src/lib.rs`). -/
structure HeadData where
  number : Nat
  parent_hash : List Nat
  post_state : List Nat
deriving DecidableEq

/-- `Encode for HeadData`: the `u64` little-endian, then the two raw
32-byte arrays. -/
def HeadData.encode (h : HeadData) : List Nat :=
  encodeU64 h.number ++ h.parent_hash ++ h.post_state

/-- `HeadData::hash`: keccak256 of the encoding.  The hash itself is an
external primitive (`tiny_keccak`), kept abstract as the parameter `H`. -/
def HeadData.hash (H : List Nat → List Nat) (h : HeadData) : List Nat :=
  H h.encode

/-- Block data of the adder parachain. -/
structure BlockData where
  state : Nat
  add : Nat
deriving DecidableEq

/-- `hash_state`: keccak256 of the `u64` encoding of the state. -/
def hash_state (H : List Nat → List Nat) (state : Nat) : List Nat :=
  H (encodeU64 state)

/-- The adder's only error: start state mismatched with the parent
header's state hash. -/
inductive AdderError where
  | StateMismatch
deriving DecidableEq

/-- `execute` (`adder/src/lib.rs` lines 96-110): reject when the hash of
the block's start state differs from the parent head's `post_state`;
otherwise add with u64 wrapping (`overflowing_add`) and build the new
head.  `number` is a `u64`, so its increment is reduced `% 2^64`. -/
def execute (H : List Nat → List Nat) (parent_hash : List Nat)
    (parent_head : HeadData) (block_data : BlockData) : Except AdderError HeadData :=
  if hash_state H block_data.state ≠ parent_head.post_state then
    .error .StateMismatch
  else
    .ok { number := (parent_head.number + 1) % 18446744073709551616,
          parent_hash := parent_hash,
          post_state := hash_state H ((block_data.state + block_data.add) % 18446744073709551616) }

end Adder

namespace EnvDef

/-- Wasm value types (`parity_wasm::elements::ValueType`). -/
inductive ValueType where
  | I32
  | I64
  | F32
  | F64
deriving DecidableEq

/-- Typed wasm values crossing the sandbox boundary
(`sandbox::TypedValue`); payloads are raw bit patterns. -/
inductive TypedValue where
  | I32 (bits : Nat)
  | I64 (bits : Nat)
  | F32 (bits : Nat)
  | F64 (bits : Nat)
deriving DecidableEq

/-- The value type of a typed value. -/
def TypedValue.typeOf : TypedValue → ValueType
  | .I32 _ => .I32
  | .I64 _ => .I64
  | .F32 _ => .F32
  | .F64 _ => .F64

/-- `ConvertibleToWasm::from_typed_value` for a declared parameter type:
succeeds exactly when the value's type matches the declaration.
Modelled from the spec: the `ConvertibleToWasm` impls live in
`env_def/mod.rs`, which is not part of the sources; the tests in
`macros.rs` fix that a `u32` parameter accepts exactly `TypedValue::I32`. -/
def from_typed_value (t : ValueType) (v : TypedValue) : Option TypedValue :=
  if v.typeOf = t then some v else none

/-- Result of running a generated stub body: the stub may panic while
unmarshalling (`.expect("TODO")`). -/
inductive PanicOr (α : Type) where
  | ok (a : α)
  | panicked
deriving DecidableEq

/-- `unmarshall_then_body!` (`macros.rs` lines 64-74): pull the next
supplied value for each declared parameter in declaration order and
convert it; a missing value (`args_iter.next()` returning `None`) or a
failed conversion hits `.expect("TODO")`, i.e. a panic.  Values beyond
the declared parameters are left unconsumed. -/
def unmarshall : List ValueType → List TypedValue → PanicOr (List TypedValue)
  | [], _ => .ok []
  | _ :: _, [] => .panicked
  | t :: ts, v :: vs =>
    match from_typed_value t v with
    | none => .panicked
    | some n =>
      match unmarshall ts vs with
      | .panicked => .panicked
      | .ok ns => .ok (n :: ns)

/-- The host-error marker (`sandbox::HostError`). -/
inductive HostError where
  | mk
deriving DecidableEq

/-- Return value of a host function (`sandbox::ReturnValue`). -/
inductive ReturnValue where
  | Unit
  | Value (v : TypedValue)
deriving DecidableEq

/-- The stub generated by `define_func!` (`macros.rs` lines 185-201):
unmarshall the arguments against the declared parameter list, then run
the body; only the body can produce a `HostError`, while an unmarshall
failure is a panic of the stub. -/
def define_func (params : List ValueType)
    (body : List TypedValue → Except HostError ReturnValue)
    (args : List TypedValue) : PanicOr (Except HostError ReturnValue) :=
  match unmarshall params args with
  | .panicked => .panicked
  | .ok natives => .ok (body natives)

/-- Compatibility of an argument list with a declared parameter list:
at least as many values as parameters, each matching its declaration's
value type position by position. -/
def argsCompatible : List ValueType → List TypedValue → Bool
  | [], _ => true
  | _ :: _, [] => false
  | t :: ts, v :: vs => (v.typeOf = t : Bool) && argsCompatible ts vs

end EnvDef

namespace WasmHost

/-- Specification of a run of `allocSeq` without u32 overflow: the final
cursor is the initial one advanced by the total size, every returned
pointer is at least the initial cursor, consecutive regions are ordered
end-before-start, and with positive sizes the pointers strictly
increase. -/
theorem allocSeq_spec (sizes : List Nat) (h : Heap)
    (hb : h.end_ + sizes.sum < 4294967296) :
    (allocSeq h sizes).2.end_ = h.end_ + sizes.sum ∧
    (∀ p ∈ (allocSeq h sizes).1, h.end_ ≤ p) ∧
    (List.zip (allocSeq h sizes).1 sizes).Pairwise (fun a b => a.1 + a.2 ≤ b.1) ∧
    ((∀ s ∈ sizes, 0 < s) → List.Chain' (· < ·) (allocSeq h sizes).1) := by
  induction sizes generalizing h with
  | nil => simp [allocSeq]
  | cons s rest ih =>
    rw [List.sum_cons] at hb
    have hs : h.end_ + s < 4294967296 := by omega
    have hmod : (h.end_ + s) % 4294967296 = h.end_ + s := Nat.mod_eq_of_lt hs
    have hstep : (h.allocate s).2 = ⟨h.end_ + s⟩ := by
      simp [Heap.allocate, hmod]
    have hb' : (⟨h.end_ + s⟩ : Heap).end_ + rest.sum < 4294967296 := by
      simp only []
      omega
    obtain ⟨ih1, ih2, ih3, ih4⟩ := ih ⟨h.end_ + s⟩ hb'
    have hfst : (h.allocate s).1 = h.end_ := rfl
    refine ⟨?_, ?_, ?_, ?_⟩
    · simp only [allocSeq, hstep, hfst, ih1, List.sum_cons]
      omega
    · intro p hp
      simp only [allocSeq, hstep, hfst, List.mem_cons] at hp
      rcases hp with rfl | hp
      · exact le_refl _
      · exact le_trans (Nat.le_add_right _ _) (ih2 p hp)
    · simp only [allocSeq, hstep, hfst, List.zip_cons_cons]
      refine List.Pairwise.cons ?_ ih3
      intro b hb
      have hmem := List.of_mem_zip hb
      exact ih2 b.1 hmem.1
    · intro hpos
      simp only [allocSeq, hstep, hfst]
      rw [List.chain'_cons']
      refine ⟨?_, ih4 fun t ht => hpos t (List.mem_cons_of_mem _ ht)⟩
      intro b hbh
      have hble : h.end_ + s ≤ b := ih2 b (List.mem_of_mem_head? hbh)
      have : 0 < s := hpos s (List.mem_cons_self _ _)
      omega

/-- C4 (amended): `allocate(n)` returns the current `end` and advances
it by `n` (u32 wrapping), `deallocate` changes no allocator state, and a
sequence of `ext_malloc` calls whose sizes are all positive and whose
total does not overflow the 32-bit cursor returns strictly increasing
pointers with pairwise non-overlapping regions. -/
theorem c4_alloc_monotonic (h : Heap) (n : Nat) (sizes : List Nat) :
    Heap.allocate h n = (h.end_, ⟨(h.end_ + n) % 4294967296⟩) ∧
    Heap.deallocate h n = h ∧
    ((∀ s ∈ sizes, 0 < s) → h.end_ + sizes.sum < 4294967296 →
      List.Chain' (· < ·) (allocSeq h sizes).1 ∧
      (List.zip (allocSeq h sizes).1 sizes).Pairwise
        (fun a b => a.1 + a.2 ≤ b.1 ∨ b.1 + b.2 ≤ a.1)) := by
  refine ⟨rfl, rfl, fun hpos hb => ?_⟩
  obtain ⟨_, _, h3, h4⟩ := allocSeq_spec sizes h hb
  exact ⟨h4 hpos, h3.imp fun hab => Or.inl hab⟩

/-- Witness for C4: a concrete run with sizes `[1, 2, 3]` from cursor 0. -/
theorem c4_alloc_monotonic_witness :
    List.Chain' (· < ·) (allocSeq ⟨0⟩ [1, 2, 3]).1 ∧
    (List.zip (allocSeq ⟨0⟩ [1, 2, 3]).1 [1, 2, 3]).Pairwise
      (fun a b => a.1 + a.2 ≤ b.1 ∨ b.1 + b.2 ≤ a.1) :=
  (c4_alloc_monotonic ⟨0⟩ 5 [1, 2, 3]).2.2 (by decide) (by decide)

/-- Counterexample for C4 as stated: two `ext_malloc(0)` calls return
the same pointer twice, so the pointer sequence is not strictly
increasing. -/
theorem c4_counterexample :
    (allocSeq ⟨0⟩ [0, 0]).1 = [0, 0] ∧
    ¬ List.Chain' (· < ·) (allocSeq ⟨0⟩ [0, 0]).1 := by
  constructor
  · rfl
  · intro hch
    rw [show (allocSeq ⟨0⟩ [0, 0]).1 = [0, 0] from rfl] at hch
    exact absurd (List.chain'_cons.mp hch).1 (lt_irrefl 0)

/-- The byte contents after a successful `MemoryInstance::grow` are the
old contents followed by the grown pages of zeroes. -/
theorem grow_ok_shape (m m' : MemoryInst) (pages : Nat)
    (hg : m.grow pages = .ok m') :
    m'.data = m.data ++ List.replicate (pages * 65536) 0 := by
  unfold MemoryInst.grow at hg
  split at hg
  · split at hg
    · exact absurd hg (by simp)
    · cases hg
      rfl
  · cases hg
    rfl

/-- C7: `Heap::new` fails with the `Runtime` error exactly when the grow
is rejected (in particular when the declared maximum is below
current + cap), and on success records the memory's initial page count
by setting the cursor to `initial_pages × 64 KiB`, the memory having
been grown by the configured page count. -/
theorem c7_heap_new (m m' : MemoryInst) (pages maxP : Nat) :
    (m.maximumPages = some maxP → m.curPages + pages > maxP →
      Heap.new m pages = .error .Runtime) ∧
    (m.grow pages = .error () → Heap.new m pages = .error .Runtime) ∧
    (m.grow pages = .ok m' → m.initialPages * 65536 < 4294967296 →
      Heap.new m pages = .ok (⟨m.initialPages * 65536⟩, m') ∧
      m'.data.length = m.data.length + pages * 65536) := by
  refine ⟨fun hmax hover => ?_, fun herr => ?_, fun hok hlt => ⟨?_, ?_⟩⟩
  · have herr : m.grow pages = .error () := by
      simp [MemoryInst.grow, hmax, hover]
    simp [Heap.new, herr]
  · simp [Heap.new, herr]
  · simp [Heap.new, hok, Nat.mod_eq_of_lt hlt]
  · rw [grow_ok_shape m m' pages hok]
    simp

/-- Witness for C7: a rejected grow on a memory with maximum 0, and a
successful zero-page grow. -/
theorem c7_heap_new_witness :
    Heap.new ⟨[], 0, some 0⟩ 1 = .error .Runtime ∧
    Heap.new ⟨[], 0, some 1⟩ 0 = .ok (⟨0⟩, ⟨[], 0, some 1⟩) := by
  constructor
  · exact (c7_heap_new ⟨[], 0, some 0⟩ ⟨[], 0, some 0⟩ 1 0).1 rfl (by decide)
  · exact ((c7_heap_new ⟨[], 0, some 1⟩ ⟨[], 0, some 1⟩ 0 0).2.2 rfl (by decide)).1

/-- C2: when the invoked export returned a single `I64` value `r`, the
executor reads `high32(r)` bytes at offset `low32(r)` from the guest
memory and hands exactly those bytes back; any other return shape (no
value, or a non-`I64` value) is the `InvalidReturn` error. -/
theorem c2_return_decoding (memory : MemoryInst) (ret : Option RuntimeValue) :
    (∀ r bytes, ret = some (.I64 r) →
      memory.get (r % 4294967296) (r / 4294967296 % 4294967296) = .ok bytes →
      decodeCallResult memory ret = .ok bytes) ∧
    ((∀ r, ret ≠ some (.I64 r)) →
      decodeCallResult memory ret = .error .InvalidReturn) := by
  constructor
  · intro r bytes hret hget
    subst hret
    simp [decodeCallResult, hget]
  · intro hshape
    match ret with
    | none => rfl
    | some (.I32 v) => rfl
    | some (.I64 v) => exact absurd rfl (hshape v)
    | some (.F32 v) => rfl
    | some (.F64 v) => rfl

/-- Witness for C2: the packed value `2·2^32 + 1` selects offset 1,
length 2 of a 3-byte memory; a missing return value is `InvalidReturn`. -/
theorem c2_return_decoding_witness :
    decodeCallResult ⟨[7, 8, 9], 0, none⟩ (some (.I64 8589934593)) = .ok [8, 9] ∧
    decodeCallResult ⟨[7, 8, 9], 0, none⟩ none = .error .InvalidReturn :=
  ⟨(c2_return_decoding ⟨[7, 8, 9], 0, none⟩ (some (.I64 8589934593))).1
      8589934593 [8, 9] rfl rfl,
   (c2_return_decoding ⟨[7, 8, 9], 0, none⟩ none).2 (fun _ h => nomatch h)⟩

/-- C5 (amended): with a readable key mapping to value `v` and the
value-offset within the value's length, `ext_get_storage_into` writes
`min buflen (len v - offset)` bytes of `v` starting at `offset` into the
guest buffer and returns that count; a key with no stored value returns
`u32::MAX` and leaves the memory untouched. -/
theorem c5_storage_into (mem mem' : MemoryInst) (storage : List Nat → Option (List Nat))
    (kd kl vd vl off : Nat) (key v : List Nat)
    (hkey : mem.get kd kl = .ok key) :
    (storage key = some v → off ≤ v.length →
      mem.set vd ((v.drop off).take (min vl (v.length - off))) = .ok mem' →
      ext_get_storage_into mem storage kd kl vd vl off = .ok (min vl (v.length - off), mem')) ∧
    (storage key = none →
      ext_get_storage_into mem storage kd kl vd vl off = .ok (4294967295, mem)) := by
  constructor
  · intro hv hoff hset
    have hlen : (v.drop off).length = v.length - off := List.length_drop off v
    simp only [ext_get_storage_into, hkey, hv, if_pos hoff, hlen, hset]
  · intro hv
    simp only [ext_get_storage_into, hkey, hv]

/-- Witness for C5 (amended): value `[1, 2, 3]`, offset 1, buffer length
5 copies `[2, 3]` into the buffer and returns 2. -/
theorem c5_storage_into_witness :
    ext_get_storage_into ⟨[9, 9, 9, 9], 0, none⟩ (fun _ => some [1, 2, 3]) 0 0 0 5 1 =
      .ok (2, ⟨[2, 3, 9, 9], 0, none⟩) :=
  (c5_storage_into ⟨[9, 9, 9, 9], 0, none⟩ ⟨[2, 3, 9, 9], 0, none⟩
      (fun _ => some [1, 2, 3]) 0 0 0 5 1 [] [1, 2, 3] rfl).1 rfl (by decide) rfl

/-- Counterexample for C5 as stated: a stored empty value with
value-offset 1 makes the host panic on the slice `&value[1..]` instead
of copying `min(buflen, len(v) - offset)` bytes and returning a count. -/
theorem c5_counterexample :
    ext_get_storage_into ⟨[0], 0, none⟩ (fun _ => some []) 0 0 0 4 1 = .panicked ∧
    ext_get_storage_into ⟨[0], 0, none⟩ (fun _ => some []) 0 0 0 4 1 ≠
      .ok (min 4 (([] : List Nat).length - 1), ⟨[0], 0, none⟩) := by
  constructor
  · rfl
  · intro hcontra
    exact nomatch (rfl.symm.trans hcontra :
      (HRes.panicked : HRes (Nat × MemoryInst)) = .ok (min 4 (([] : List Nat).length - 1), ⟨[0], 0, none⟩))

/-- C6 (amended): on a readable, UTF-8-valid export name and a valid
instance index, the legacy `ext_sandbox_invoke` invokes the named export
of the nested instance with no arguments and returns `ERR_OK` when the
nested call completes without a value, panics (`unimplemented!`) when
the nested call produces a return value, and returns `ERR_EXECUTION`
when the nested call traps. -/
theorem c6_invoke (store : SandboxStore) (mem : MemoryInst)
    (idx ep el st : Nat) (bs : List Nat) (inst : SandboxInstance)
    (hget : mem.get ep el = .ok bs) (hutf : isValidUtf8 bs = true)
    (hinst : store.instanceAt idx = .ok inst) :
    (inst.invoke bs [] st = .ok none →
      ext_sandbox_invoke store mem idx ep el st = .ok .ERR_OK) ∧
    (∀ val, inst.invoke bs [] st = .ok (some val) →
      ext_sandbox_invoke store mem idx ep el st = .panicked) ∧
    (inst.invoke bs [] st = .trapped →
      ext_sandbox_invoke store mem idx ep el st = .ok .ERR_EXECUTION) := by
  refine ⟨fun hres => ?_, fun val hres => ?_, fun hres => ?_⟩ <;>
    simp only [ext_sandbox_invoke, hget, hutf, hinst, hres, if_true]

/-- Witness for C6 (amended): a nested instance completing without a
value yields `ERR_OK`, one that traps yields `ERR_EXECUTION`. -/
theorem c6_invoke_witness :
    ext_sandbox_invoke ⟨[some ⟨fun _ _ _ => .ok none⟩], []⟩ ⟨[102], 0, none⟩ 0 0 1 0 =
      .ok .ERR_OK ∧
    ext_sandbox_invoke ⟨[some ⟨fun _ _ _ => .trapped⟩], []⟩ ⟨[102], 0, none⟩ 0 0 1 0 =
      .ok .ERR_EXECUTION :=
  ⟨(c6_invoke ⟨[some ⟨fun _ _ _ => .ok none⟩], []⟩ ⟨[102], 0, none⟩ 0 0 1 0 [102]
      ⟨fun _ _ _ => .ok none⟩ rfl rfl rfl).1 rfl,
   (c6_invoke ⟨[some ⟨fun _ _ _ => .trapped⟩], []⟩ ⟨[102], 0, none⟩ 0 0 1 0 [102]
      ⟨fun _ _ _ => .trapped⟩ rfl rfl rfl).2.2 rfl⟩

/-- Counterexample for C6 as stated: a nested call that completes WITH a
return value is not discarded with `ERR_OK` — the host panics on
`unimplemented!()`. -/
theorem c6_counterexample :
    ext_sandbox_invoke ⟨[some ⟨fun _ _ _ => .ok (some (.I32 0))⟩], []⟩
      ⟨[102], 0, none⟩ 0 0 1 0 = .panicked ∧
    ext_sandbox_invoke ⟨[some ⟨fun _ _ _ => .ok (some (.I32 0))⟩], []⟩
      ⟨[102], 0, none⟩ 0 0 1 0 ≠ .ok .ERR_OK := by
  constructor
  · rfl
  · intro hcontra
    exact nomatch (rfl.symm.trans hcontra :
      (HRes.panicked : HRes SandboxCode) = .ok .ERR_OK)

/-- C8: for `ext_sandbox_memory_get` and `ext_sandbox_memory_set`, a
valid memory index turns any range violation — in the sub-sandbox
memory or in the outer guest memory — into the soft return code
`ERR_OUT_OF_BOUNDS` with no state change, success into `ERR_OK` with
the copied bytes, while an invalid memory index raises a user-error
trap in the outer guest. -/
theorem c8_sandbox_memory (store : SandboxStore) (mem dst mem' dst' : MemoryInst)
    (idx offset ptr len : Nat) (data : List Nat) :
    (store.memoryAt idx = .error () →
      ext_sandbox_memory_get store mem idx offset ptr len = .trap ∧
      ext_sandbox_memory_set store mem idx offset ptr len = .trap) ∧
    (store.memoryAt idx = .ok dst →
      (dst.get offset len = .error () →
        ext_sandbox_memory_get store mem idx offset ptr len = .ok (.ERR_OUT_OF_BOUNDS, mem)) ∧
      (dst.get offset len = .ok data → mem.set ptr data = .error () →
        ext_sandbox_memory_get store mem idx offset ptr len = .ok (.ERR_OUT_OF_BOUNDS, mem)) ∧
      (dst.get offset len = .ok data → mem.set ptr data = .ok mem' →
        ext_sandbox_memory_get store mem idx offset ptr len = .ok (.ERR_OK, mem')) ∧
      (mem.get offset len = .error () →
        ext_sandbox_memory_set store mem idx offset ptr len = .ok (.ERR_OUT_OF_BOUNDS, store)) ∧
      (mem.get offset len = .ok data → dst.set ptr data = .error () →
        ext_sandbox_memory_set store mem idx offset ptr len = .ok (.ERR_OUT_OF_BOUNDS, store)) ∧
      (mem.get offset len = .ok data → dst.set ptr data = .ok dst' →
        ext_sandbox_memory_set store mem idx offset ptr len =
          .ok (.ERR_OK, store.updateMemory idx dst'))) := by
  constructor
  · intro hidx
    constructor <;> simp only [ext_sandbox_memory_get, ext_sandbox_memory_set, hidx]
  · intro hidx
    refine ⟨fun h1 => ?_, fun h1 h2 => ?_, fun h1 h2 => ?_,
            fun h1 => ?_, fun h1 h2 => ?_, fun h1 h2 => ?_⟩ <;>
      simp only [ext_sandbox_memory_get, ext_sandbox_memory_set, hidx, h1] <;>
      try simp only [h2]

/-- Witness for C8: copying two bytes from a valid sandbox memory into
the outer memory returns `ERR_OK` with the mutated outer memory; an
invalid index traps. -/
theorem c8_sandbox_memory_witness :
    ext_sandbox_memory_get ⟨[], [some ⟨[5, 6], 0, none⟩]⟩ ⟨[0, 0, 0], 0, none⟩ 0 0 1 2 =
      .ok (.ERR_OK, ⟨[0, 5, 6], 0, none⟩) ∧
    ext_sandbox_memory_get ⟨[], []⟩ ⟨[0, 0, 0], 0, none⟩ 0 0 1 2 = .trap :=
  ⟨((c8_sandbox_memory ⟨[], [some ⟨[5, 6], 0, none⟩]⟩ ⟨[0, 0, 0], 0, none⟩ ⟨[5, 6], 0, none⟩
      ⟨[0, 5, 6], 0, none⟩ ⟨[5, 6], 0, none⟩ 0 0 1 2 [5, 6]).2 rfl).2.2.1 rfl rfl,
   ((c8_sandbox_memory ⟨[], []⟩ ⟨[0, 0, 0], 0, none⟩ ⟨[], 0, none⟩
      ⟨[], 0, none⟩ ⟨[], 0, none⟩ 0 0 1 2 []).1 rfl).1⟩

/-- Every outcome derivable by the big-step relation is the value
computed by `call_in_wasm_module`: the relation mirrors the source
branch for branch, so each derivation pins all intermediate results. -/
theorem callRel_eq {E : Type} {p : Nat} {mm : ModuleModel E} {method : String}
    {data : List Nat} {ext : E} {o : CallOutcome E}
    (h : CallRel p mm method data ext o) :
    o = call_in_wasm_module p mm method data ext := by
  cases h with
  | instFail e h1 =>
    simp [call_in_wasm_module, h1]
  | noMemoryExport h1 h2 =>
    simp [call_in_wasm_module, h1, h2]
  | memoryExportNotMemory h1 h2 =>
    simp [call_in_wasm_module, h1, h2]
  | heapFail memory e h1 h2 h3 =>
    simp [call_in_wasm_module, h1, h2, h3]
  | startFail memory memory' heap e st h1 h2 h3 h4 =>
    simp [call_in_wasm_module, h1, h2, h3, h4]
  | payloadSetFail memory memory' heap u st h1 h2 h3 h4 h5 =>
    simp [call_in_wasm_module, h1, h2, h3, h4, h5]
  | invokeFail memory memory' heap u st mem' e st' h1 h2 h3 h4 h5 h6 =>
    simp [call_in_wasm_module, h1, h2, h3, h4, h5, h6]
  | decodeFail memory memory' heap u st mem' returned st' e h1 h2 h3 h4 h5 h6 h7 =>
    simp [call_in_wasm_module, h1, h2, h3, h4, h5, h6, h7]
  | success memory memory' heap u st mem' returned st' bytes h1 h2 h3 h4 h5 h6 h7 =>
    simp [call_in_wasm_module, h1, h2, h3, h4, h5, h6, h7]

/-- C1: the executor introduces no nondeterminism of its own — two runs
of `call_in_wasm_module` on equal code semantics, method, payload and
externalities snapshot reach the same outcome: identical return bytes
and identical externalities post-states. -/
theorem c1_determinism {E : Type} (p : Nat) (mm : ModuleModel E) (method : String)
    (data : List Nat) (ext : E) (o₁ o₂ : CallOutcome E)
    (h₁ : CallRel p mm method data ext o₁) (h₂ : CallRel p mm method data ext o₂) :
    o₁ = o₂ :=
  (callRel_eq h₁).trans (callRel_eq h₂).symm

/-- Witness for C1: two complete success-path derivations on a concrete
module whose export returns the packed value 0 (offset 0, length 0). -/
theorem c1_determinism_witness :
    (CallOutcome.ok [] 7 : CallOutcome Nat) = CallOutcome.ok [] 7 :=
  c1_determinism 0
    ⟨none, some (.memory ⟨[0, 0, 0, 0], 0, some 0⟩), false,
      fun s => (.ok (), s), fun _ _ s => (.ok (some (.I64 0)), s)⟩
    ("m") [] 7 (.ok [] 7) (.ok [] 7)
    (CallRel.success ⟨[0, 0, 0, 0], 0, some 0⟩ ⟨[0, 0, 0, 0], 0, some 0⟩ ⟨0⟩ ()
      ⟨⟨[0, 0, 0, 0], 0, some 0⟩, ⟨0⟩, 7⟩ ⟨[0, 0, 0, 0], 0, some 0⟩
      (some (.I64 0)) ⟨⟨[0, 0, 0, 0], 0, some 0⟩, ⟨0⟩, 7⟩ []
      rfl rfl rfl rfl rfl rfl rfl)
    (CallRel.success ⟨[0, 0, 0, 0], 0, some 0⟩ ⟨[0, 0, 0, 0], 0, some 0⟩ ⟨0⟩ ()
      ⟨⟨[0, 0, 0, 0], 0, some 0⟩, ⟨0⟩, 7⟩ ⟨[0, 0, 0, 0], 0, some 0⟩
      (some (.I64 0)) ⟨⟨[0, 0, 0, 0], 0, some 0⟩, ⟨0⟩, 7⟩ []
      rfl rfl rfl rfl rfl rfl rfl)

/-- C3: the source extracts the `memory` export with `expect(...)`, so
`call_in_wasm_module` on a module that instantiates but has no export
named `memory`, or whose `memory` export is not a linear memory, aborts
with a host panic instead of returning the `Runtime` error. -/
theorem c3_missing_memory_panics :
    call_in_wasm_module 8
      (⟨none, none, false, fun s => (.ok (), s), fun _ _ s => (.ok none, s)⟩ :
        ModuleModel Nat) ("main") [] 0 = .panicked ∧
    call_in_wasm_module 8
      (⟨none, some .other, false, fun s => (.ok (), s), fun _ _ s => (.ok none, s)⟩ :
        ModuleModel Nat) ("main") [] 0 = .panicked :=
  ⟨rfl, rfl⟩

end WasmHost

namespace Adder

/-- C9: with `parent_hash = H(parent_head)` and
`parent_head.post_state = H(s)`, the adder's `execute` on
`block = {state: s, add: a}` yields
`Ok {number: n+1, parent_hash: H(parent_head), post_state: H((s+a) mod 2^64)}`
(the addition wrapping on u64 overflow); whenever `H(block.state)`
differs from `parent_head.post_state` it yields `Err(StateMismatch)`. -/
theorem c9_execute (H : List Nat → List Nat) (n s a : Nat) (p ph : List Nat)
    (head : HeadData) (bd : BlockData)
    (hn : n + 1 < 18446744073709551616)
    (hph : ph = HeadData.hash H ⟨n, p, hash_state H s⟩) :
    (execute H ph ⟨n, p, hash_state H s⟩ ⟨s, a⟩ =
      .ok ⟨n + 1, HeadData.hash H ⟨n, p, hash_state H s⟩,
        hash_state H ((s + a) % 18446744073709551616)⟩) ∧
    (hash_state H bd.state ≠ head.post_state →
      execute H ph head bd = .error .StateMismatch) := by
  constructor
  · subst hph
    simp [execute, Nat.mod_eq_of_lt hn]
  · intro hne
    simp [execute, hne]

/-- Witness for C9: the constant hash function and `n = 0`, `s = 1`,
`a = 2`. -/
theorem c9_execute_witness :
    execute (fun _ => []) [] ⟨0, [], []⟩ ⟨1, 2⟩ = .ok ⟨1, [], []⟩ :=
  (c9_execute (fun _ => []) 0 1 2 [] [] ⟨0, [], [0]⟩ ⟨0, 0⟩ (by decide) rfl).1

end Adder

namespace EnvDef

/-- The unmarshalling of `unmarshall_then_body!` characterised against
`argsCompatible`: compatible argument lists are consumed position by
position in declaration order, anything else panics. -/
theorem unmarshall_eq (params : List ValueType) (args : List TypedValue) :
    (argsCompatible params args = true →
      unmarshall params args = .ok (args.take params.length)) ∧
    (argsCompatible params args = false →
      unmarshall params args = .panicked) := by
  induction params generalizing args with
  | nil =>
    simp [argsCompatible, unmarshall]
  | cons t ts ih =>
    cases args with
    | nil =>
      simp [argsCompatible, unmarshall]
    | cons v vs =>
      by_cases hvt : v.typeOf = t
      · have hfrom : from_typed_value t v = some v := by
          simp [from_typed_value, hvt]
        constructor
        · intro hcompat
          have hrest : argsCompatible ts vs = true := by
            simpa [argsCompatible, hvt] using hcompat
          simp [unmarshall, hfrom, (ih vs).1 hrest]
        · intro hcompat
          have hrest : argsCompatible ts vs = false := by
            simpa [argsCompatible, hvt] using hcompat
          simp [unmarshall, hfrom, (ih vs).2 hrest]
      · have hfrom : from_typed_value t v = none := by
          simp [from_typed_value, hvt]
        constructor
        · intro hcompat
          exact absurd hcompat (by simp [argsCompatible, hvt])
        · intro _
          simp [unmarshall, hfrom]

/-- C10: the generated stub pulls the supplied typed values strictly in
declaration order — matching parameter count and value types make
unmarshalling succeed with the values bound position by position, so the
failure branch is unreachable there — whereas a missing or wrongly-typed
argument panics the stub (both `unmarshall` and the whole `define_func`
stub), never returning a `HostError` to the caller. -/
theorem c10_unmarshall (params : List ValueType) (args : List TypedValue)
    (body : List TypedValue → Except HostError ReturnValue) :
    (argsCompatible params args = true →
      unmarshall params args = .ok (args.take params.length) ∧
      define_func params body args = .ok (body (args.take params.length))) ∧
    (argsCompatible params args = false →
      unmarshall params args = .panicked ∧
      define_func params body args = .panicked) := by
  constructor
  · intro hcompat
    have hu := (unmarshall_eq params args).1 hcompat
    exact ⟨hu, by simp [define_func, hu]⟩
  · intro hcompat
    have hu := (unmarshall_eq params args).2 hcompat
    exact ⟨hu, by simp [define_func, hu]⟩

/-- Witness for C10: parameters `(i32, i64)` with a matching argument
list (an extra trailing value stays unconsumed), and the same parameters
with a wrongly-typed first argument panicking the stub. -/
theorem c10_unmarshall_witness :
    (unmarshall [.I32, .I64] [.I32 1, .I64 2, .F32 3] = .ok [.I32 1, .I64 2] ∧
      define_func [.I32, .I64] (fun _ => .ok .Unit) [.I32 1, .I64 2, .F32 3] =
        .ok (.ok .Unit)) ∧
    (unmarshall [.I32, .I64] [.F64 9] = .panicked ∧
      define_func [.I32, .I64] (fun _ => .ok .Unit) [.F64 9] = .panicked) :=
  ⟨(c10_unmarshall [.I32, .I64] [.I32 1, .I64 2, .F32 3] (fun _ => .ok .Unit)).1 (by decide),
   (c10_unmarshall [.I32, .I64] [.F64 9] (fun _ => .ok .Unit)).2 (by decide)⟩

end EnvDef
